import Mathlib

/-!
Verification of the Battleship game engine in `src/src/main.c`.

The C code is shallowly embedded: fields are 100-element `List Char`
(row-major, `IDX x y = x*10+y`), `uint8_t` arithmetic is `Nat` with an
explicit `% 256` where overflow can matter, the C `rand()` source is an
explicit stream of naturals consumed from the front, and each C function
becomes a pure Lean function of the state it reads and writes.
Assignments to `my_field` are modelled as an explicit write trace
(`List (Nat × Char)`) so that out-of-bounds indices are observable;
applying a write with index ≥ 100 leaves the 100-cell list unchanged,
matching the fact that such a write lands outside `my_field` in the C
object layout.
-/

namespace Battleship

/-- `#define IDX(x, y) ((x) * 10 + (y))` from main.c. -/
def IDX (x y : Nat) : Nat := x * 10 + y

/-- `#define FIELD_SIZE 100`. -/
def FIELD_SIZE : Nat := 100

/-- `#define ROWS 10`. -/
def ROWS : Nat := 10

/-- `#define COLS 10`. -/
def COLS : Nat := 10

/-- The C expression `c - '0'` stored into a `uint8_t` (plain `char` is an
unsigned byte on the target), i.e. subtraction modulo 256. -/
def sub0 (c : Char) : Nat := (c.toNat % 256 + 256 - 48) % 256

/-- The NUL byte: contents of a cleared buffer cell, and the value read
past the terminator of a freshly framed line. -/
def NUL : Char := Char.ofNat 0

/-- One C assignment `field[i] = v` applied to the 100-cell field; an index
beyond the list leaves it unchanged (the store lands outside `my_field`). -/
def applyWrites (f : List Char) (ws : List (Nat × Char)) : List Char :=
  ws.foldl (fun acc w => acc.set w.1 w.2) f

/-- All stores performed by `place_ship_and_blocked(game, index, size,
horizontal)` (main.c lines 687-766), in program order, as (index, value)
pairs.  The ship cells receive `size + '0'`; blocking cells receive `'X'`.
Note the vertical branch guards the below-ship blocker with
`index / 10 != 9` — the row of the *first* segment — where the horizontal
branch guards its right-hand analogue with `(index + size - 1) % 10 != 9`,
the *last* segment. -/
def place_ship_and_blocked_writes (index size : Nat) (horizontal : Bool) :
    List (Nat × Char) :=
  if horizontal then
    (List.range size).map (fun i => (index + i, Char.ofNat (size + 48)))
      ++ (if index % 10 ≠ 0 then [(index - 1, 'X')] else [])
      ++ (if (index + size - 1) % 10 ≠ 9 then [(index + size, 'X')] else [])
      ++ (if index / 10 > 0 then
            (List.range size).map (fun i => (index - 10 + i, 'X')) else [])
      ++ (if index / 10 < 9 then
            (List.range size).map (fun i => (index + 10 + i, 'X')) else [])
      ++ (if index % 10 ≠ 0 ∧ index / 10 > 0 then [(index - 10 - 1, 'X')] else [])
      ++ (if index % 10 ≠ 0 ∧ index / 10 < 9 then [(index + 10 - 1, 'X')] else [])
      ++ (if (index + size - 1) % 10 ≠ 9 ∧ index / 10 > 0 then
            [(index - 10 + size, 'X')] else [])
      ++ (if (index + size - 1) % 10 ≠ 9 ∧ index / 10 < 9 then
            [(index + 10 + size, 'X')] else [])
  else
    (List.range size).map (fun i => (index + 10 * i, Char.ofNat (size + 48)))
      ++ (if index / 10 ≠ 0 then [(index - 10, 'X')] else [])
      ++ (if index / 10 ≠ 9 then [(index + size * 10, 'X')] else [])
      ++ (if index % 10 > 0 then
            (List.range size).map (fun i => (index - 1 + 10 * i, 'X')) else [])
      ++ (if index % 10 < 9 then
            (List.range size).map (fun i => (index + 1 + 10 * i, 'X')) else [])
      ++ (if index / 10 ≠ 0 ∧ index % 10 > 0 then [(index - 10 - 1, 'X')] else [])
      ++ (if index / 10 ≠ 0 ∧ index % 10 < 9 then [(index - 10 + 1, 'X')] else [])
      ++ (if index / 10 ≠ 9 ∧ index % 10 > 0 then
            [(index + size * 10 - 1, 'X')] else [])
      ++ (if index / 10 ≠ 9 ∧ index % 10 < 9 then
            [(index + size * 10 + 1, 'X')] else [])

/-- `place_ship_and_blocked` as a field transformer. -/
def place_ship_and_blocked (f : List Char) (index size : Nat)
    (horizontal : Bool) : List Char :=
  applyWrites f (place_ship_and_blocked_writes index size horizontal)

/-- The C `rand()` source: pop the next value from a stream of naturals
(an exhausted stream yields 0). -/
def randNext (r : List Nat) : Nat × List Nat := (r.headD 0, r.tail)

/-- Swap two positions of a list of naturals (the shuffle's
`tmp = indices[i]; indices[i] = indices[j]; indices[j] = tmp`). -/
def listSwap (l : List Nat) (i j : Nat) : List Nat :=
  let a := l.getD i 0
  let b := l.getD j 0
  (l.set i b).set j a

/-- The Fisher–Yates shuffle of `indices[10] = {0,...,9}` in
`try_place_ship` (main.c lines 769-777): `for (i = 9; i > 0; i--)`
with `j = rand() % (i + 1)`. -/
def shuffleIndices (r : List Nat) : List Nat × List Nat :=
  ([9, 8, 7, 6, 5, 4, 3, 2, 1] : List Nat).foldl
    (fun st i =>
      let (v, r') := randNext st.2
      (listSwap st.1 i (v % (i + 1)), r'))
    ([0, 1, 2, 3, 4, 5, 6, 7, 8, 9], r)

/-- The longest-run scan of one line of the field (main.c lines 788-806):
returns `(best_start, best_len)`, the first longest contiguous run of `'0'`
cells in row `fixed` (when `horizontal`) or column `fixed` (otherwise). -/
def scanRuns (f : List Char) (fixed : Nat) (horizontal : Bool) : Nat × Nat :=
  let step := fun (st : Nat × Nat × Nat × Nat) (i : Nat) =>
    let (run_start, run_len, best_start, best_len) := st
    let idx := if horizontal then IDX fixed i else IDX i fixed
    if f.getD idx NUL == '0' then
      let run_start' := if run_len == 0 then i else run_start
      let run_len' := run_len + 1
      if run_len' > best_len then (run_start', run_len', run_start', run_len')
      else (run_start', run_len', best_start, best_len)
    else (run_start, 0, best_start, best_len)
  let st := (List.range 10).foldl step (0, 0, 0, 0)
  (st.2.2.1, st.2.2.2)

/-- One orientation attempt of `try_place_ship` on line `fixed`: if the
longest free run fits the ship, consume one `rand()` for the offset and
return the placement's write trace and the remaining stream. -/
def try_place_at (f : List Char) (size fixed : Nat) (horizontal : Bool)
    (r : List Nat) : Option (List (Nat × Char) × List Nat) :=
  if size ≤ (scanRuns f fixed horizontal).2 then
    some (place_ship_and_blocked_writes
      (if horizontal then
        IDX fixed ((scanRuns f fixed horizontal).1 +
          (randNext r).1 % ((scanRuns f fixed horizontal).2 - size + 1))
      else
        IDX ((scanRuns f fixed horizontal).1 +
          (randNext r).1 % ((scanRuns f fixed horizontal).2 - size + 1)) fixed)
      size horizontal, (randNext r).2)
  else none

/-- The `for (k …) for (pass …)` search of `try_place_ship` (main.c lines
782-819).  Each `k` flips `horizontal` for pass 0 and flips it back for
pass 1, so the entry orientation is restored before the next `k`.
Returns (placed?, field, write trace of the placed ship, stream). -/
def tryPlaceLoop (f : List Char) (size : Nat) (horizontal : Bool)
    (r : List Nat) : List Nat → Bool × List Char × List (Nat × Char) × List Nat
  | [] => (false, f, [], r)
  | fixed :: rest =>
    match try_place_at f size fixed (!horizontal) r with
    | some (ws, r') => (true, applyWrites f ws, ws, r')
    | none =>
      match try_place_at f size fixed horizontal r with
      | some (ws, r') => (true, applyWrites f ws, ws, r')
      | none => tryPlaceLoop f size horizontal r rest

/-- `try_place_ship(game, size)` (main.c lines 768-822) on the own field:
shuffle the ten line indices, draw the initial orientation with
`rand() % 2`, then search the lines in shuffled order. -/
def try_place_ship (f : List Char) (size : Nat) (r : List Nat) :
    Bool × List Char × List (Nat × Char) × List Nat :=
  let sh := shuffleIndices r
  let hv := randNext sh.2
  tryPlaceLoop f size (hv.1 % 2 == 1) hv.2 sh.1

/-- The per-row checksum computed at the end of `create_my_field`
(main.c lines 854-861): for each row, count the columns whose cell byte
minus `'0'` (as `uint8_t`) is nonzero. -/
def computeChecksum (f : List Char) : List Nat :=
  (List.range ROWS).map (fun row =>
    (List.range COLS).foldl
      (fun cs col =>
        if sub0 (f.getD (IDX row col) NUL) ≠ 0 then cs + 1 else cs)
      0)

/-- The ship-part count of `create_my_field` (main.c lines 844-847):
cells with `'2' <= c && c <= '5'`. -/
def shipCount (f : List Char) : Nat :=
  f.countP (fun c => decide ('2' ≤ c ∧ c ≤ '5'))

/-- The field part of `create_my_field(game)` (main.c lines 824-862):
clear the field, place 1×5, 2×4, 3×3, 4×2 ships ignoring per-ship failure,
then turn every `'X'` blocker back into `'0'`.  (The `count != 30` check in
the C source has an empty body.)  `placeFleet` is one `try_place_ship`
call on the (field, rand stream) pair, ignoring the success flag. -/
def placeFleet (st : List Char × List Nat) (size : Nat) : List Char × List Nat :=
  match st with
  | (f, r) => ((try_place_ship f size r).2.1, (try_place_ship f size r).2.2.2)

/-- The `while (n_battleship--) …` ship sequence of `create_my_field`:
one attempt per ship size 5, 4, 4, 3, 3, 3, 2, 2, 2, 2, then `'X'`
removal. -/
def fleetFold (r : List Nat) : List Char × List Nat :=
  ([5, 4, 4, 3, 3, 3, 2, 2, 2, 2] : List Nat).foldl placeFleet
    (List.replicate FIELD_SIZE '0', r)

def createFieldRaw (r : List Nat) : List Char × List Nat :=
  ((fleetFold r).1.map (fun c => if c == 'X' then '0' else c), (fleetFold r).2)

/-- `enum MessageType` from main.c. -/
inductive MessageType
  | MSG_HD_START
  | MSG_HD_CS
  | MSG_HD_BOOM_XY
  | MSG_HD_BOOM_RESULT
  | MSG_HD_SF_ROW
deriving DecidableEq, Repr

/-- `enum ShotType` from main.c. -/
inductive ShotType
  | HIT
  | MISS
deriving DecidableEq, Repr

/-- `struct GameState` from main.c (lines 178-203). -/
structure GameState where
  my_field : List Char
  enemy_field : List Char
  my_shots : List Char
  enemy_shots : List Char
  my_checksum : List Nat
  enemy_checksum : List Nat
  enemy_hits : Nat
  last_shot_x : Nat
  last_shot_y : Nat
  last_shot_result : ShotType
  hunter_mode : Bool
  hunter_x : Nat
  hunter_y : Nat
  parser_x : Nat
  parser_y : Nat
  parser_row : Nat
  last_row : Bool
  i_lost : Bool
deriving DecidableEq, Repr

/-- The game state produced by `init_new_game` (main.c lines 548-577); the
C function does not assign `last_shot_result`, so its prior value `res`
persists across the reset. -/
def init_new_game_state (res : ShotType) : GameState where
  my_field := List.replicate FIELD_SIZE '0'
  enemy_field := List.replicate FIELD_SIZE '0'
  my_shots := List.replicate FIELD_SIZE '0'
  enemy_shots := List.replicate FIELD_SIZE '0'
  my_checksum := List.replicate ROWS 0
  enemy_checksum := List.replicate ROWS 0
  enemy_hits := 0
  last_shot_x := 0
  last_shot_y := 0
  last_shot_result := res
  hunter_mode := false
  hunter_x := 0
  hunter_y := 0
  parser_x := 0
  parser_y := 0
  parser_row := 0
  last_row := false
  i_lost := false

/-- `init_new_game(msg, game)`: reset everything except `last_shot_result`. -/
def init_new_game (g : GameState) : GameState :=
  init_new_game_state g.last_shot_result

/-- Outgoing protocol lines, one constructor per `LOG` response shape. -/
inductive Out
  | dhStartMax
  | dhCs (cs : List Nat)
  | dhBoomH
  | dhBoomM
  | dhBoom (x y : Nat)
  | dhSfRow (row : Nat) (cells : List Char)
  | ccReport (n : Nat)
  | ccResetMsg
deriving DecidableEq, Repr

/-- The ten cells of one row of a field, as read by `print_my_field`. -/
def rowSlice (f : List Char) (row : Nat) : List Char :=
  (List.range 10).map (fun col => f.getD (IDX row col) NUL)

/-- `print_my_field(game)` (main.c lines 677-685): emit the own field as
ten `DH_SF{row}D{cells}` lines. -/
def print_my_field (g : GameState) : List Out :=
  (List.range 10).map (fun row => Out.dhSfRow row (rowSlice g.my_field row))

/-- `create_my_field(game)` (main.c lines 824-862) at the game level:
regenerate `my_field` and recompute `my_checksum` from it. -/
def create_my_field (g : GameState) (r : List Nat) : GameState × List Nat :=
  let fr := createFieldRaw r
  ({ g with my_field := fr.1, my_checksum := computeChecksum fr.1 }, fr.2)

/-- `validate_enemy_cs(game)` (main.c lines 940-963): recompute the
per-row occupancy of the received enemy field (the identical loop to the
checksum computation of `create_my_field`) and compare all ten rows with
the stored `enemy_checksum`.  Returns `true` when every row matches. -/
def validate_enemy_cs (g : GameState) : Bool :=
  let temp_enemy_cs := computeChecksum g.enemy_field
  (List.range ROWS).all (fun i => temp_enemy_cs.getD i 0 == g.enemy_checksum.getD i 0)

/-- `handle_hd_start(game)` (main.c lines 587-590): acknowledge with
`DH_START_MAX` and generate a fresh field. -/
def handle_hd_start (g : GameState) (r : List Nat) :
    GameState × List Out × List Nat :=
  let gr := create_my_field g r
  (gr.1, [Out.dhStartMax], gr.2)

/-- `handle_hd_cs(game)` (main.c lines 596-603): emit the own checksum
row (the enemy's checksum was already stored by the decoder). -/
def handle_hd_cs (g : GameState) : GameState × List Out :=
  (g, [Out.dhCs g.my_checksum])

/-- The row-selection loop of search mode (main.c lines 906-914): the row
holding the strictly largest stored enemy checksum (ties keep the earlier
row, the all-zero checksum gives row 0). -/
def best_cs_row (g : GameState) : Nat :=
  ((List.range ROWS).foldl
    (fun st row =>
      if g.enemy_checksum.getD row 0 > st.2 then (row, g.enemy_checksum.getD row 0)
      else st)
    (0, 0)).1

/-- The checkerboard condition of the search loop (main.c lines 917-927):
column `col` of the best row has even parity and is untried. -/
def cbUntried (g : GameState) (col : Nat) : Bool :=
  (best_cs_row g + col) % 2 == 0 && g.my_shots.getD (IDX (best_cs_row g) col) NUL == '0'

/-- The fallback condition (main.c lines 930-937): cell `i` is untried. -/
def anyUntried (g : GameState) (i : Nat) : Bool :=
  g.my_shots.getD i NUL == '0'

/-- The search-mode part of `attacking_opponent` (main.c lines 905-937):
fire at the first untried checkerboard cell of the best row, else at the
first untried cell anywhere; if every cell was tried, fire nothing. -/
def attacking_search (g : GameState) : GameState × List Out :=
  match (List.range COLS).find? (cbUntried g) with
  | some col =>
      ({ g with last_shot_x := best_cs_row g, last_shot_y := col },
       [Out.dhBoom (best_cs_row g) col])
  | none =>
      match (List.range FIELD_SIZE).find? (anyUntried g) with
      | some i =>
          ({ g with last_shot_x := i / 10, last_shot_y := i % 10 },
           [Out.dhBoom (i / 10) (i % 10)])
      | none => (g, [])

/-- `attacking_opponent(game)` (main.c lines 864-938): in hunter mode probe
right, left, down, up around the anchor for an untried cell; if none,
clear hunter mode and fall through to search mode. -/
def attacking_opponent (g : GameState) : GameState × List Out :=
  if g.hunter_mode then
    if g.hunter_y + 1 < 10 &&
        g.my_shots.getD (IDX g.hunter_x (g.hunter_y + 1)) NUL == '0' then
      ({ g with last_shot_x := g.hunter_x, last_shot_y := g.hunter_y + 1 },
       [Out.dhBoom g.hunter_x (g.hunter_y + 1)])
    else if g.hunter_y > 0 &&
        g.my_shots.getD (IDX g.hunter_x (g.hunter_y - 1)) NUL == '0' then
      ({ g with last_shot_x := g.hunter_x, last_shot_y := g.hunter_y - 1 },
       [Out.dhBoom g.hunter_x (g.hunter_y - 1)])
    else if g.hunter_x + 1 < 10 &&
        g.my_shots.getD (IDX (g.hunter_x + 1) g.hunter_y) NUL == '0' then
      ({ g with last_shot_x := g.hunter_x + 1, last_shot_y := g.hunter_y },
       [Out.dhBoom (g.hunter_x + 1) g.hunter_y])
    else if g.hunter_x > 0 &&
        g.my_shots.getD (IDX (g.hunter_x - 1) g.hunter_y) NUL == '0' then
      ({ g with last_shot_x := g.hunter_x - 1, last_shot_y := g.hunter_y },
       [Out.dhBoom (g.hunter_x - 1) g.hunter_y])
    else attacking_search { g with hunter_mode := false }
  else attacking_search g

/-- The miss branch's update of `enemy_shots` (main.c lines 616-618):
`if (game->enemy_shots[index] != 'M') game->enemy_shots[index] = 'M';`. -/
def missMarked (g : GameState) : GameState :=
  if g.enemy_shots.getD (IDX g.parser_x g.parser_y) NUL ≠ 'M' then
    { g with enemy_shots := g.enemy_shots.set (IDX g.parser_x g.parser_y) 'M' }
  else g

/-- The hit branch's update (main.c lines 620-623): mark the cell hit and
increment the `uint8_t` hit counter, unless it was already marked. -/
def hitMarked (g : GameState) : GameState :=
  if g.enemy_shots.getD (IDX g.parser_x g.parser_y) NUL ≠ 'H' then
    { g with enemy_shots := g.enemy_shots.set (IDX g.parser_x g.parser_y) 'H',
             enemy_hits := (g.enemy_hits + 1) % 256 }
  else g

/-- `handle_hd_boom_xy(game)` (main.c lines 609-636): answer the incoming
shot at the parsed coordinate; on the 30th hit set `i_lost`, dump the own
field and do not counter-attack; otherwise counter-attack. -/
def handle_hd_boom_xy (g : GameState) : GameState × List Out :=
  if g.my_field.getD (IDX g.parser_x g.parser_y) NUL = '0' then
    ((attacking_opponent (missMarked g)).1,
     Out.dhBoomM :: (attacking_opponent (missMarked g)).2)
  else
    if (hitMarked g).enemy_hits = 30 then
      ({ hitMarked g with i_lost := true }, print_my_field (hitMarked g))
    else
      ((attacking_opponent (hitMarked g)).1,
       Out.dhBoomH :: (attacking_opponent (hitMarked g)).2)

/-- `handle_hd_boom_result(game)` (main.c lines 642-655): mark the last
own shot in `my_shots`; on a hit also anchor hunter mode there. -/
def handle_hd_boom_result (g : GameState) : GameState :=
  let index := IDX g.last_shot_x g.last_shot_y
  match g.last_shot_result with
  | ShotType.HIT =>
      { g with my_shots := g.my_shots.set index 'H',
               hunter_mode := true,
               hunter_x := g.last_shot_x, hunter_y := g.last_shot_y }
  | ShotType.MISS =>
      { g with my_shots := g.my_shots.set index 'M' }

/-- The stores of `handle_hd_sf_row` (main.c lines 661-671):
`enemy_field[IDX(row, col)] = msg->buffer[7 + col]` for `col = 0..9`. -/
def handle_hd_sf_row_writes (row : Nat) (buf : List Char) : List (Nat × Char) :=
  (List.range COLS).map (fun col => (IDX row col, buf.getD (7 + col) NUL))

/-- One store through `enemy_field[i]` resolved against the `GameState`
object layout (main.c lines 178-203): `my_field`, `enemy_field`,
`my_shots`, `enemy_shots` (100 bytes each) and `my_checksum`,
`enemy_checksum` (10 bytes each) are consecutive `char`/`uint8_t` members
with no padding between them, so a store at `enemy_field`-relative index
`i` in 100..319 lands in the member that sits `100 + i` bytes from the
start of the struct.  In particular indices 300..309 overwrite
`my_checksum[0..9]`.  Indices ≥ 320 reach the scalar tail of the struct
(from `enemy_hits` on), where the `ShotType` enum makes exact offsets
implementation-defined; those stores are left outside the state model
(the write trace of `handle_hd_sf_row_writes` still records them). -/
def enemyFieldStore (g : GameState) (i : Nat) (c : Char) : GameState :=
  if i < 100 then { g with enemy_field := g.enemy_field.set i c }
  else if i < 200 then { g with my_shots := g.my_shots.set (i - 100) c }
  else if i < 300 then { g with enemy_shots := g.enemy_shots.set (i - 200) c }
  else if i < 310 then
    { g with my_checksum := g.my_checksum.set (i - 300) (c.toNat % 256) }
  else if i < 320 then
    { g with enemy_checksum := g.enemy_checksum.set (i - 310) (c.toNat % 256) }
  else g

/-- `handle_hd_sf_row(msg, game)`: copy the row into the enemy-field
mirror and raise `last_row` when the parsed row index equals 9.  The
copy's stores go through `enemyFieldStore`: `parser_row` is unvalidated,
so rows ≥ 10 store past `enemy_field` into the following struct
members. -/
def handle_hd_sf_row (buf : List Char) (g : GameState) : GameState :=
  if g.parser_row == 9 then
    { (handle_hd_sf_row_writes g.parser_row buf).foldl
        (fun a w => enemyFieldStore a w.1 w.2) g with last_row := true }
  else
    (handle_hd_sf_row_writes g.parser_row buf).foldl
      (fun a w => enemyFieldStore a w.1 w.2) g

/-- The C test `c >= '0' && c <= '9'` on a byte. -/
def isDigit (c : Char) : Bool := decide ('0' ≤ c) && decide ('9' ≥ c)

/-- Which branch of `message_decoder`'s if-chain (main.c lines 377-441)
fires for a given line, in source order.  This is a pure function of the
line text: each branch tests only prefixes, lengths and character
classes. -/
inductive DecodeKind
  | KStart
  | KCs
  | KBoomXY
  | KBoomResult
  | KSfRow
  | KDbgField
  | KDbgEval
  | KDbgReset
  | KNone
deriving DecidableEq, Repr

/-- The branch selection of `message_decoder`.  Note the `HD_SF` branch
checks only `strncmp(msg->buffer, "HD_SF", 5) == 0` — no length and no
digit test — so every line beginning with `HD_SF` lands there. -/
def classify (l : List Char) : DecodeKind :=
  if l = "HD_START".toList then DecodeKind.KStart
  else if l.take 6 = "HD_CS_".toList ∧ l.length = 16 then DecodeKind.KCs
  else if l.take 8 = "HD_BOOM_".toList ∧ l.length = 11 ∧
      isDigit (l.getD 8 NUL) ∧ isDigit (l.getD 10 NUL) then DecodeKind.KBoomXY
  else if l.take 8 = "HD_BOOM_".toList ∧ l.length = 9 ∧
      (l.getD 8 NUL = 'H' ∨ l.getD 8 NUL = 'M') then DecodeKind.KBoomResult
  else if l.take 5 = "HD_SF".toList then DecodeKind.KSfRow
  else if l = "DD_GAMEFIELD".toList then DecodeKind.KDbgField
  else if l = "DD_EVALUATE_CC".toList then DecodeKind.KDbgEval
  else if l = "DD_RESET_CC".toList then DecodeKind.KDbgReset
  else DecodeKind.KNone

/-- `message_decoder(msg, game)` (main.c lines 377-441) with its side
effects: field extraction into the game state, the debug commands, and the
returned `MessageType`.  Two deliberate modelling notes, both from the C
source:
* in the `HD_BOOM_{H/M}` branch, line 406 reads `msg->buffer[8] == "H"` —
  a byte compared against the *address* of the string literal `"H"` — which
  is false on the target for every byte value, so `last_shot_result` is
  assigned `MISS` for `HD_BOOM_H` as well as `HD_BOOM_M`;
* for the debug branches and unrecognized lines the C function falls off
  the end without a `return` (the `MSG_INVALID` variant is commented out);
  the consistently-ignored outcome is modelled as `none`. -/
def message_decoder (l : List Char) (g : GameState) (cheat : Nat)
    (r : List Nat) :
    Option MessageType × GameState × Nat × List Out × List Nat :=
  match classify l with
  | DecodeKind.KStart => (some MessageType.MSG_HD_START, g, cheat, [], r)
  | DecodeKind.KCs =>
      let g' := { g with
        enemy_checksum := (List.range ROWS).map (fun i => sub0 (l.getD (i + 6) NUL)) }
      (some MessageType.MSG_HD_CS, g', cheat, [], r)
  | DecodeKind.KBoomXY =>
      (some MessageType.MSG_HD_BOOM_XY,
       { g with parser_x := sub0 (l.getD 8 NUL), parser_y := sub0 (l.getD 10 NUL) },
       cheat, [], r)
  | DecodeKind.KBoomResult =>
      (some MessageType.MSG_HD_BOOM_RESULT,
       { g with last_shot_result := ShotType.MISS }, cheat, [], r)
  | DecodeKind.KSfRow =>
      (some MessageType.MSG_HD_SF_ROW,
       { g with parser_row := sub0 (l.getD 5 NUL) }, cheat, [], r)
  | DecodeKind.KDbgField =>
      let gr := create_my_field g r
      (none, gr.1, cheat, print_my_field gr.1, gr.2)
  | DecodeKind.KDbgEval => (none, g, cheat, [Out.ccReport cheat], r)
  | DecodeKind.KDbgReset => (none, g, 0, [Out.ccResetMsg], r)
  | DecodeKind.KNone => (none, g, cheat, [], r)

/-- `enum {STATE_INIT, STATE_PLAY, STATE_END} State_Type`. -/
inductive State_Type
  | STATE_INIT
  | STATE_PLAY
  | STATE_END
deriving DecidableEq, Repr

/-- `state_init` (main.c lines 455-469) on a ready line: `HD_START` is
acknowledged and the field generated, staying in INIT; `HD_CS` answers
with the own checksum and enters PLAY; everything else leaves INIT. -/
def state_init (l : List Char) (g : GameState) (cheat : Nat) (r : List Nat) :
    State_Type × GameState × Nat × List Out × List Nat :=
  let (t, g1, cheat1, outs1, r1) := message_decoder l g cheat r
  match t with
  | some MessageType.MSG_HD_START =>
      let h := handle_hd_start g1 r1
      (State_Type.STATE_INIT, h.1, cheat1, outs1 ++ h.2.1, h.2.2)
  | some MessageType.MSG_HD_CS =>
      let h := handle_hd_cs g1
      (State_Type.STATE_PLAY, h.1, cheat1, outs1 ++ h.2, r1)
  | _ => (State_Type.STATE_INIT, g1, cheat1, outs1, r1)

/-- `state_play` (main.c lines 481-506) on a ready line. -/
def state_play (l : List Char) (g : GameState) (cheat : Nat) (r : List Nat) :
    State_Type × GameState × Nat × List Out × List Nat :=
  let (t, g1, cheat1, outs1, r1) := message_decoder l g cheat r
  match t with
  | some MessageType.MSG_HD_BOOM_XY =>
      let h := handle_hd_boom_xy g1
      ((if h.1.i_lost then State_Type.STATE_END else State_Type.STATE_PLAY),
       h.1, cheat1, outs1 ++ h.2, r1)
  | some MessageType.MSG_HD_BOOM_RESULT =>
      (State_Type.STATE_PLAY, handle_hd_boom_result g1, cheat1, outs1, r1)
  | some MessageType.MSG_HD_SF_ROW =>
      let g2 := handle_hd_sf_row l g1
      ((if g2.last_row then State_Type.STATE_END else State_Type.STATE_PLAY),
       g2, cheat1, outs1, r1)
  | _ => (State_Type.STATE_PLAY, g1, cheat1, outs1, r1)

/-- `state_end` (main.c lines 515-540).  When defeated it consumes enemy
field rows (`mline = none` models `msg->ready == false`: nothing happens);
after the final row it increments the cheat counter **iff
`validate_enemy_cs` returns true**, i.e. iff every row matched (the
`if (validate_enemy_cs(game)) cheat_counter++;` of line 525), then resets.
When the opponent lost it dumps the own field and resets at once. -/
def state_end (mline : Option (List Char)) (g : GameState) (cheat : Nat)
    (r : List Nat) :
    State_Type × GameState × Nat × List Out × List Nat :=
  if g.i_lost then
    match mline with
    | none => (State_Type.STATE_END, g, cheat, [], r)
    | some l =>
      let (t, g1, cheat1, outs1, r1) := message_decoder l g cheat r
      match t with
      | some MessageType.MSG_HD_SF_ROW =>
          if (handle_hd_sf_row l g1).last_row then
            (State_Type.STATE_INIT, init_new_game (handle_hd_sf_row l g1),
              (if validate_enemy_cs (handle_hd_sf_row l g1) then cheat1 + 1
               else cheat1), outs1, r1)
          else (State_Type.STATE_END, handle_hd_sf_row l g1, cheat1, outs1, r1)
      | _ => (State_Type.STATE_END, g1, cheat1, outs1, r1)
  else
    (State_Type.STATE_INIT, init_new_game g, cheat, print_my_field g, r)

/-- The FSM context: current state (dispatched through `state_table`),
game state, and the global `cheat_counter`. -/
structure Sys where
  curr_state : State_Type
  game : GameState
  cheat : Nat
deriving DecidableEq, Repr

/-- One main-loop observation: either a complete framed line became ready,
or the loop iterated with no ready line (`tick`). -/
inductive Ev
  | line (l : List Char)
  | tick
deriving DecidableEq, Repr

/-- One iteration of the main loop `state_table[curr_state](&msg, &game)`.
In INIT and PLAY a pending line is consumed and a tick does nothing; in
END a defeated game consumes the line, while a won game runs its reset
branch unconditionally (a pending line is cleared unread by
`init_new_game`). -/
def sysStep (s : Sys) (e : Ev) (r : List Nat) : Sys × List Out × List Nat :=
  match s.curr_state, e with
  | State_Type.STATE_INIT, Ev.line l =>
      let (st, g, c, outs, r') := state_init l s.game s.cheat r
      (⟨st, g, c⟩, outs, r')
  | State_Type.STATE_INIT, Ev.tick => (s, [], r)
  | State_Type.STATE_PLAY, Ev.line l =>
      let (st, g, c, outs, r') := state_play l s.game s.cheat r
      (⟨st, g, c⟩, outs, r')
  | State_Type.STATE_PLAY, Ev.tick => (s, [], r)
  | State_Type.STATE_END, Ev.line l =>
      let (st, g, c, outs, r') :=
        state_end (if s.game.i_lost then some l else none) s.game s.cheat r
      (⟨st, g, c⟩, outs, r')
  | State_Type.STATE_END, Ev.tick =>
      let (st, g, c, outs, r') := state_end none s.game s.cheat r
      (⟨st, g, c⟩, outs, r')

/-- One main-loop iteration viewed on (system, rand stream), discarding
the emitted lines. -/
def sysStep1 (st : Sys × List Nat) (e : Ev) : Sys × List Nat :=
  ((sysStep st.1 e st.2).1, (sysStep st.1 e st.2).2.2)

/-- Run the main loop over a sequence of observations. -/
def sysRun (s : Sys) (r : List Nat) (evs : List Ev) : Sys × List Nat :=
  evs.foldl sysStep1 (s, r)

/-- The state of the program at the top of the main loop: `curr_state` is
the zero-initialized `STATE_INIT`, `cheat_counter` is 0, and
`init_new_game` has run once; `res` stands for the indeterminate initial
value of the never-initialized `last_shot_result` member. -/
def initialSys (res : ShotType) : Sys :=
  ⟨State_Type.STATE_INIT, init_new_game_state res, 0⟩

/-- Modelled from the spec (§6): the closed wire grammar of incoming
lines.  `HD_SF{row}D{10 chars}` requires row `0-9`, the literal `D`, and
exactly ten field characters (total length 17). -/
def spec_matches_grammar (l : List Char) : Bool :=
  l == "HD_START".toList
  || (l.take 6 == "HD_CS_".toList && l.length == 16 && (l.drop 6).all isDigit)
  || (l.take 8 == "HD_BOOM_".toList && l.length == 11 && isDigit (l.getD 8 NUL)
      && l.getD 9 NUL == '_' && isDigit (l.getD 10 NUL))
  || l == "HD_BOOM_H".toList
  || l == "HD_BOOM_M".toList
  || (l.take 5 == "HD_SF".toList && l.length == 17 && isDigit (l.getD 5 NUL)
      && l.getD 6 NUL == 'D')
  || l == "DD_GAMEFIELD".toList
  || l == "DD_EVALUATE_CC".toList
  || l == "DD_RESET_CC".toList

/-- Does some line of the trace fall into decoder branch `k`? -/
def traceHasKindB (evs : List Ev) (k : DecodeKind) : Bool :=
  evs.any (fun e =>
    match e with
    | Ev.line l => classify l == k
    | Ev.tick => false)

/-- A well-formed `HD_SF{row}D{cells}` line. -/
def sfRowLine (row : Nat) (cells : List Char) : List Char :=
  "HD_SF".toList ++ [Char.ofNat (48 + row), 'D'] ++ cells

/-- An `HD_BOOM_{x}_{y}` line built from two coordinate characters. -/
def boomLine (cx cy : Char) : List Char :=
  "HD_BOOM_".toList ++ [cx, '_', cy]

/-- A rand stream (values already reduced modulo their use sites) on which
the generator deadlocks: after the first nine ships the free cells contain
no horizontal or vertical pair, so the fourth size-2 ship is never placed
and the finished field holds 28 ship cells. -/
def c5FailStream : List Nat :=
  [9, 5, 6, 5, 1, 3, 2, 1, 0, 0, 1, 1, 2, 1, 5, 1, 0, 1, 0, 1, 1, 1, 7, 2,
   5, 4, 3, 3, 3, 2, 0, 1, 0, 8, 7, 7, 3, 0, 4, 3, 0, 1, 0, 3, 3, 6, 2, 1,
   2, 0, 0, 0, 0, 1, 1, 1, 2, 3, 1, 2, 4, 2, 1, 1, 1, 0, 8, 8, 7, 2, 5, 3,
   0, 2, 0, 0, 1, 8, 4, 4, 2, 3, 1, 3, 1, 1, 1, 1, 7, 7, 0, 2, 2, 4, 1, 2,
   1, 1, 0, 9, 7, 3, 3, 4, 4, 2, 0, 0, 1]

/-- A rand stream driving `try_place_ship` to place a size-2 ship
vertically at rows 8-9 of column 0: identity shuffle, vertical first
pass, offset 8 in the free run of column 0. -/
def c6Stream : List Nat := [9, 8, 7, 6, 5, 4, 3, 2, 1, 1, 8]

/-- A defeated game at the start of the END state: `i_lost` is set and the
opponent checksum stored at handshake was all zeros. -/
def c1LostSys : Sys :=
  ⟨State_Type.STATE_END, { init_new_game_state ShotType.MISS with i_lost := true }, 0⟩

/-- Ten field-row lines whose recomputed occupancy (1 in row 0) differs
from the stored all-zero opponent checksum. -/
def c1MismatchEvs : List Ev :=
  Ev.line (sfRowLine 0 "1000000000".toList)
    :: (List.range 9).map (fun i => Ev.line (sfRowLine (i + 1) "0000000000".toList))

/-- Ten all-empty field-row lines, matching the stored all-zero opponent
checksum. -/
def c1MatchEvs : List Ev :=
  (List.range 10).map (fun i => Ev.line (sfRowLine i "0000000000".toList))

/-- A fresh game whose last own shot was recorded at (3, 4). -/
def c2Game : GameState :=
  { init_new_game_state ShotType.MISS with last_shot_x := 3, last_shot_y := 4 }

/-- A fresh game sitting in the PLAY state. -/
def playSys : Sys := ⟨State_Type.STATE_PLAY, init_new_game_state ShotType.MISS, 0⟩

/-- The single-line trace `HD_CS_0000000000`. -/
def csOnlyEvs : List Ev := [Ev.line "HD_CS_0000000000".toList]

/-- The hunter branch of `attacking_opponent` finds a target exactly when
one of the four probes (right, left, down, up) is in bounds and untried. -/
def hunter_has_target (g : GameState) : Bool :=
  (g.hunter_y + 1 < 10 && g.my_shots.getD (IDX g.hunter_x (g.hunter_y + 1)) NUL == '0')
  || (g.hunter_y > 0 && g.my_shots.getD (IDX g.hunter_x (g.hunter_y - 1)) NUL == '0')
  || (g.hunter_x + 1 < 10 && g.my_shots.getD (IDX (g.hunter_x + 1) g.hunter_y) NUL == '0')
  || (g.hunter_x > 0 && g.my_shots.getD (IDX (g.hunter_x - 1) g.hunter_y) NUL == '0')

/-- (x, y) is a legitimate hunter-mode choice: an in-bounds orthogonal
neighbor of the anchor whose shot-tracking cell is still untried. -/
def isHunterChoice (g : GameState) (x y : Nat) : Prop :=
  ((x = g.hunter_x ∧ y = g.hunter_y + 1) ∨
   (x = g.hunter_x ∧ y + 1 = g.hunter_y) ∨
   (x = g.hunter_x + 1 ∧ y = g.hunter_y) ∨
   (x + 1 = g.hunter_x ∧ y = g.hunter_y)) ∧
  x ≤ 9 ∧ y ≤ 9 ∧ g.my_shots.getD (IDX x y) NUL = '0'

/-- A game in hunter mode anchored at (3, 4) with no shots fired yet. -/
def c10Game : GameState :=
  { init_new_game_state ShotType.MISS with
      hunter_mode := true, hunter_x := 3, hunter_y := 4 }

/-- The game state after the decoder stored a parsed shot coordinate. -/
def parsed (g : GameState) (x y : Nat) : GameState :=
  { g with parser_x := x, parser_y := y }

/-- The hit counter after an incoming shot on an occupied cell: unchanged
when the cell was already marked hit, else incremented (as a `uint8_t`). -/
def boomHits (g : GameState) (idx : Nat) : Nat :=
  if g.enemy_shots.getD idx NUL = 'H' then g.enemy_hits else (g.enemy_hits + 1) % 256

/-- The game state right after an incoming shot at (x, y) on an occupied
cell has been recorded: parsed coordinates stored, the opponent-visible
shot grid marked hit, the hit counter updated. -/
def boomMarked (g : GameState) (x y : Nat) : GameState :=
  { g with parser_x := x, parser_y := y,
           enemy_shots := if g.enemy_shots.getD (IDX x y) NUL = 'H' then g.enemy_shots
                          else g.enemy_shots.set (IDX x y) 'H',
           enemy_hits := boomHits g (IDX x y) }

/-- A fresh game with a single ship segment at (3, 4). -/
def c8Game : GameState :=
  { init_new_game_state ShotType.MISS with
      my_field := (List.replicate FIELD_SIZE '0').set (IDX 3 4) '2' }

/-- The number of occupied (non-`'0'`) cells in row `row` of a field. -/
def rowOcc (f : List Char) (row : Nat) : Nat :=
  (List.range 10).countP (fun col => decide (f.getD (IDX row col) NUL ≠ '0'))

/-- Every cell of the field is a byte value (all cell characters the
program ever stores are ASCII). -/
def FieldBytes (f : List Char) : Prop := ∀ c ∈ f, c.toNat < 256

/-- The checksum/row-occupancy correspondence: every `my_field` byte fits
uint8 and each stored checksum row equals the actual row occupancy of
`my_field`.  `create_my_field` establishes it (`create_my_field_inv`) and
the shot handlers preserve it, but the unvalidated FieldRow row index
lets `handle_hd_sf_row` overwrite `my_checksum` and break it. -/
def checksum_inv (g : GameState) : Prop :=
  FieldBytes g.my_field ∧
  ∀ row, row < 10 → g.my_checksum.getD row 0 = rowOcc g.my_field row

/-- An `HD_SF` line whose row character is `'N'`: the decoder's 5-byte
prefix check accepts it and stores `parser_row = 'N' - '0' = 30`, so the
row copy's ten stores land at `enemy_field`-relative indices 300..309 —
`my_checksum[0..9]` in the object layout — with the payload byte `'1'`
(value 49). -/
def sfRow30Line : List Char := "HD_SFND1111111111".toList

/-- A handshake reaching PLAY: `HD_START` generates the own field and
checksum, `HD_CS_0000000000` moves the FSM to PLAY. -/
def c9HandshakeEvs : List Ev :=
  [Ev.line "HD_START".toList, Ev.line "HD_CS_0000000000".toList]

/-- The handshake followed by the row-30 FieldRow line. -/
def c9Evs : List Ev := c9HandshakeEvs ++ [Ev.line sfRow30Line]

/-!  ## Theorems  -/

/-- C1: in the defeated END state, after ten received field rows whose
recomputed occupancy differs from the stored opponent checksum (row 0
has one occupied cell, the stored checksum is all zeros), the cheat
counter is NOT incremented — and after ten rows that fully match it IS
incremented.  `state_end` guards the increment with
`if (validate_enemy_cs(game))`, which returns true exactly on a full
match, so the counter counts honest matches, the inverse of the claim. -/
theorem c1_cheat_counter_counts_matches :
    (sysRun c1LostSys [] c1MismatchEvs).1.cheat = 0 ∧
    (sysRun c1LostSys [] c1MatchEvs).1.cheat = 1 ∧
    (sysRun c1LostSys [] c1MismatchEvs).1.curr_state = State_Type.STATE_INIT := by
  decide

/-- C2: processing the ShotResult line `HD_BOOM_H` in PLAY, with the last
own shot recorded at (3, 4), marks `my_shots[34]` as `'M'` and leaves
hunter mode off: line 406's `msg->buffer[8] == "H"` compares the byte
against the address of a string literal, so the HIT branch is never
taken. -/
theorem c2_boom_h_marks_miss_no_hunter :
    (state_play "HD_BOOM_H".toList c2Game 0 []).2.1.my_shots.getD (IDX 3 4) NUL = 'M' ∧
    (state_play "HD_BOOM_H".toList c2Game 0 []).2.1.hunter_mode = false ∧
    (state_play "HD_BOOM_M".toList c2Game 0 []).2.1.my_shots.getD (IDX 3 4) NUL = 'M' := by
  decide

/-- C3: the line `HD_SF9` matches no message pattern of the grammar (an
`HD_SF` row line must be 17 characters), yet processing it in PLAY sets
`last_row`, rewrites row 9 of the enemy-field mirror and moves the FSM to
END: the decoder's `HD_SF` branch checks only the five-character prefix. -/
theorem c3_malformed_sf_line_not_ignored :
    spec_matches_grammar "HD_SF9".toList = false ∧
    (sysStep playSys (Ev.line "HD_SF9".toList) []).1.curr_state = State_Type.STATE_END ∧
    (sysStep playSys (Ev.line "HD_SF9".toList) []).1.game.last_row = true ∧
    (sysStep playSys (Ev.line "HD_SF9".toList) []).1.game ≠ playSys.game := by
  decide

/-- C4 (counterexample): from the initial state, the single line
`HD_CS_0000000000` drives the FSM into PLAY although no line of the trace
decodes as `HD_START`: `state_init` enters PLAY on any checksum message,
with no ordering requirement. -/
theorem c4_play_reached_without_start :
    (sysRun (initialSys ShotType.MISS) [] csOnlyEvs).1.curr_state = State_Type.STATE_PLAY ∧
    traceHasKindB csOnlyEvs DecodeKind.KStart = false := by
  decide

set_option maxRecDepth 8000 in
/-- C5: on the concrete rand stream `c5FailStream` the generator finishes
with 28 ship cells, not 30: the last size-2 ship finds no free run of
length 2 in any row or column, `try_place_ship` returns false, and
`create_my_field` ignores the failure (its `count != 30` check has an
empty body). -/
theorem c5_generator_can_finish_with_28_cells :
    shipCount (createFieldRaw c5FailStream).1 = 28 := by
  decide

/-- C6: on stream `c6Stream`, `try_place_ship` places a size-2 ship
vertically at rows 8-9 of column 0 and `place_ship_and_blocked` then
stores `'X'` at indices 100 and 101 — outside the 100-cell field — because
its below-ship guard `index / 10 != 9` tests the first segment's row
rather than the last segment's. -/
theorem c6_vertical_ship_writes_past_field :
    (100, 'X') ∈ (try_place_ship (List.replicate 100 '0') 2 c6Stream).2.2.1 ∧
    (101, 'X') ∈ (try_place_ship (List.replicate 100 '0') 2 c6Stream).2.2.1 := by
  decide

/-- C7: the decoder classifies `HD_SF:D1111111111` as a FieldRow message
and extracts row index 10 (`':' - '0'`), and the row copy then writes the
ten indices 100..109, all outside the 100-cell mirror: the `HD_SF` branch
never validates that the row character is a digit. -/
theorem c7_sf_row_ten_writes_out_of_bounds :
    classify "HD_SF:D1111111111".toList = DecodeKind.KSfRow ∧
    (message_decoder "HD_SF:D1111111111".toList (init_new_game_state ShotType.MISS)
      0 []).2.1.parser_row = 10 ∧
    (handle_hd_sf_row_writes 10 "HD_SF:D1111111111".toList).all
      (fun w => decide (100 ≤ w.1)) = true := by
  decide

/-- The FSM state produced by `state_init`: PLAY exactly on a checksum
message, INIT otherwise. -/
lemma state_init_fst (l : List Char) (g : GameState) (c : Nat) (r : List Nat) :
    (state_init l g c r).1 =
      if classify l = DecodeKind.KCs then State_Type.STATE_PLAY
      else State_Type.STATE_INIT := by
  cases hcl : classify l <;>
    simp [state_init, message_decoder, hcl, handle_hd_start, handle_hd_cs]

lemma sysStep_init_line (g : GameState) (c : Nat) (l : List Char) (r : List Nat) :
    (sysStep ⟨State_Type.STATE_INIT, g, c⟩ (Ev.line l) r).1.curr_state =
      (state_init l g c r).1 := rfl

/-- A step taken in INIT leaves INIT only on a line the decoder
classifies as a checksum exchange. -/
lemma sysStep_from_init (g : GameState) (c : Nat) (e : Ev) (r : List Nat)
    (h : (sysStep ⟨State_Type.STATE_INIT, g, c⟩ e r).1.curr_state ≠ State_Type.STATE_INIT) :
    ∃ l, e = Ev.line l ∧ classify l = DecodeKind.KCs := by
  cases e with
  | tick => simp [sysStep] at h
  | line l =>
    refine ⟨l, rfl, ?_⟩
    rw [sysStep_init_line, state_init_fst] at h
    by_contra hne
    rw [if_neg hne] at h
    exact h rfl

/-- A run that ends outside INIT either started outside INIT or saw a
checksum-exchange line. -/
lemma run_nonInit (evs : List Ev) : ∀ (s : Sys) (r : List Nat),
    (sysRun s r evs).1.curr_state ≠ State_Type.STATE_INIT →
    s.curr_state ≠ State_Type.STATE_INIT ∨ traceHasKindB evs DecodeKind.KCs = true := by
  induction evs with
  | nil => exact fun s r h => Or.inl h
  | cons e evs ih =>
    intro s r h
    rcases ih (sysStep1 (s, r) e).1 (sysStep1 (s, r) e).2 h with h2 | h2
    · by_cases hs : s.curr_state = State_Type.STATE_INIT
      · rcases s with ⟨cs, g, c⟩
        simp only at hs
        subst hs
        obtain ⟨l, rfl, hcl⟩ := sysStep_from_init g c e r h2
        right
        simp [traceHasKindB, hcl]
      · exact Or.inl hs
    · right
      simp only [traceHasKindB, List.any_cons] at h2 ⊢
      simp [h2]

/-- C4 (amended): in every execution from the initial state, the FSM is
in PLAY only if some line of the trace was decoded as a ChecksumExchange
(`HD_CS_` plus ten characters); a prior Start message is not required. -/
theorem c4_play_only_after_checksum (evs : List Ev) (r : List Nat) (res : ShotType)
    (h : (sysRun (initialSys res) r evs).1.curr_state = State_Type.STATE_PLAY) :
    traceHasKindB evs DecodeKind.KCs = true := by
  rcases run_nonInit evs (initialSys res) r
      (by rw [h]; intro hh; exact nomatch hh) with h1 | h1
  · exact absurd rfl h1
  · exact h1

/-- Witness for C4: the one-line checksum trace does reach PLAY, and the
theorem instantiates on it. -/
theorem c4_play_only_after_checksum_witness :
    traceHasKindB csOnlyEvs DecodeKind.KCs = true :=
  c4_play_only_after_checksum csOnlyEvs [] ShotType.MISS (by decide)

/-- A fired search-mode shot targets an untried cell: both the
checkerboard probe and the full-scan fallback test `my_shots[...] == '0'`
before firing. -/
lemma attacking_search_untried (g : GameState) (x y : Nat)
    (h : (attacking_search g).2 = [Out.dhBoom x y]) :
    g.my_shots.getD (IDX x y) NUL = '0' := by
  unfold attacking_search at h
  rcases hfind : (List.range COLS).find? (cbUntried g) with _ | col
  · rw [hfind] at h
    rcases hfb : (List.range FIELD_SIZE).find? (anyUntried g) with _ | i
    · rw [hfb] at h
      simp at h
    · rw [hfb] at h
      have hp := List.find?_some hfb
      simp only [anyUntried, beq_iff_eq] at hp
      simp only [List.cons.injEq, Out.dhBoom.injEq, and_true] at h
      have hidx : IDX x y = i := by
        rw [IDX, ← h.1, ← h.2]
        omega
      rw [hidx]
      exact hp
  · rw [hfind] at h
    have hp := List.find?_some hfind
    simp only [cbUntried, Bool.and_eq_true, beq_iff_eq] at hp
    simp only [List.cons.injEq, Out.dhBoom.injEq, and_true] at h
    rw [← h.1, ← h.2]
    exact hp.2

/-- C10: every shot `attacking_opponent` fires lands on a cell of the own
shot-tracking grid still holding `'0'` (never one already marked hit or
miss), and whenever hunter mode is on and one of the four orthogonal
probes around the anchor is in bounds and untried, the fired shot is such
an in-bounds untried orthogonal neighbor of the anchor. -/
theorem c10_ai_never_retargets (g : GameState)
    (hx : g.hunter_x ≤ 9) (hy : g.hunter_y ≤ 9) :
    (∀ x y, (attacking_opponent g).2 = [Out.dhBoom x y] →
        g.my_shots.getD (IDX x y) NUL = '0') ∧
    (g.hunter_mode = true → hunter_has_target g = true →
        ∃ x y, (attacking_opponent g).2 = [Out.dhBoom x y] ∧ isHunterChoice g x y) := by
  constructor
  · intro x y h
    unfold attacking_opponent at h
    split at h
    · split at h
      · rename_i hguard
        simp only [Bool.and_eq_true, beq_iff_eq, decide_eq_true_eq] at hguard
        simp only [List.cons.injEq, Out.dhBoom.injEq, and_true] at h
        rw [← h.1, ← h.2]
        exact hguard.2
      · split at h
        · rename_i hguard
          simp only [Bool.and_eq_true, beq_iff_eq, decide_eq_true_eq] at hguard
          simp only [List.cons.injEq, Out.dhBoom.injEq, and_true] at h
          rw [← h.1, ← h.2]
          exact hguard.2
        · split at h
          · rename_i hguard
            simp only [Bool.and_eq_true, beq_iff_eq, decide_eq_true_eq] at hguard
            simp only [List.cons.injEq, Out.dhBoom.injEq, and_true] at h
            rw [← h.1, ← h.2]
            exact hguard.2
          · split at h
            · rename_i hguard
              simp only [Bool.and_eq_true, beq_iff_eq, decide_eq_true_eq] at hguard
              simp only [List.cons.injEq, Out.dhBoom.injEq, and_true] at h
              rw [← h.1, ← h.2]
              exact hguard.2
            · simpa using attacking_search_untried _ x y h
    · exact attacking_search_untried _ x y h
  · intro hm ht
    unfold attacking_opponent
    rw [hm]
    simp only [if_true]
    split
    · rename_i hguard
      simp only [Bool.and_eq_true, beq_iff_eq, decide_eq_true_eq] at hguard
      exact ⟨g.hunter_x, g.hunter_y + 1, rfl,
        ⟨Or.inl ⟨rfl, rfl⟩, hx, by omega, hguard.2⟩⟩
    · split
      · rename_i hg1 hguard
        simp only [Bool.and_eq_true, beq_iff_eq, decide_eq_true_eq] at hguard
        exact ⟨g.hunter_x, g.hunter_y - 1, rfl,
          ⟨Or.inr (Or.inl ⟨rfl, by omega⟩), hx, by omega, hguard.2⟩⟩
      · split
        · rename_i hg1 hg2 hguard
          simp only [Bool.and_eq_true, beq_iff_eq, decide_eq_true_eq] at hguard
          exact ⟨g.hunter_x + 1, g.hunter_y, rfl,
            ⟨Or.inr (Or.inr (Or.inl ⟨rfl, rfl⟩)), by omega, hy, hguard.2⟩⟩
        · split
          · rename_i hg1 hg2 hg3 hguard
            simp only [Bool.and_eq_true, beq_iff_eq, decide_eq_true_eq] at hguard
            exact ⟨g.hunter_x - 1, g.hunter_y, rfl,
              ⟨Or.inr (Or.inr (Or.inr ⟨by omega, rfl⟩)), by omega, hy, hguard.2⟩⟩
          · rename_i hg1 hg2 hg3 hg4
            exfalso
            unfold hunter_has_target at ht
            simp only [Bool.or_eq_true] at ht
            rcases ht with ((h1 | h2) | h3) | h4
            · exact hg1 h1
            · exact hg2 h2
            · exact hg3 h3
            · exact hg4 h4

/-- Witness for C10 at the concrete hunter game anchored at (3, 4). -/
theorem c10_ai_never_retargets_witness :
    (∀ x y, (attacking_opponent c10Game).2 = [Out.dhBoom x y] →
        c10Game.my_shots.getD (IDX x y) NUL = '0') ∧
    (c10Game.hunter_mode = true → hunter_has_target c10Game = true →
        ∃ x y, (attacking_opponent c10Game).2 = [Out.dhBoom x y] ∧
          isHunterChoice c10Game x y) :=
  c10_ai_never_retargets c10Game (by decide) (by decide)

lemma boomLine_length (cx cy : Char) : (boomLine cx cy).length = 11 := rfl

/-- A line `HD_BOOM_{x}_{y}` with digit coordinate characters lands in the
decoder's shot branch. -/
lemma classify_boomLine (cx cy : Char) (hdx : isDigit cx = true)
    (hdy : isDigit cy = true) :
    classify (boomLine cx cy) = DecodeKind.KBoomXY := by
  have h1 : ¬(boomLine cx cy = "HD_START".toList) := by
    intro h
    have h' := congrArg List.length h
    rw [boomLine_length] at h'
    exact absurd h' (by decide)
  have h2 : ¬((boomLine cx cy).take 6 = "HD_CS_".toList ∧
      (boomLine cx cy).length = 16) := by
    intro h
    have h' := h.2
    rw [boomLine_length] at h'
    exact absurd h' (by decide)
  unfold classify
  rw [if_neg h1, if_neg h2, if_pos ⟨rfl, rfl, hdx, hdy⟩]

lemma isDigit_bounds (c : Char) (h : isDigit c = true) :
    48 ≤ c.toNat ∧ c.toNat ≤ 57 := by
  simp only [isDigit, Bool.and_eq_true, decide_eq_true_eq, ge_iff_le] at h
  obtain ⟨h1, h2⟩ := h
  rw [Char.le_def] at h1 h2
  rw [UInt32.le_def, BitVec.le_def] at h1 h2
  exact ⟨h1, h2⟩

/-- On a digit character `c - '0'` is just the digit value, at most 9. -/
lemma sub0_digit (c : Char) (h : isDigit c = true) :
    sub0 c = c.toNat - 48 ∧ sub0 c ≤ 9 := by
  obtain ⟨h1, h2⟩ := isDigit_bounds c h
  unfold sub0
  omega

lemma getD_set_self (l : List Char) (i : Nat) (a d : Char) (h : i < l.length) :
    (l.set i a).getD i d = a := by
  simp [List.getD_eq_getElem?_getD, List.getElem?_set_self h]

/-- `state_play` on a shot line is the shot handler on the parsed game. -/
lemma state_play_boomLine (cx cy : Char) (hdx : isDigit cx = true)
    (hdy : isDigit cy = true) (g : GameState) (cheat : Nat) (r : List Nat) :
    state_play (boomLine cx cy) g cheat r =
      ((if (handle_hd_boom_xy (parsed g (sub0 cx) (sub0 cy))).1.i_lost
          then State_Type.STATE_END else State_Type.STATE_PLAY),
       (handle_hd_boom_xy (parsed g (sub0 cx) (sub0 cy))).1,
       cheat,
       (handle_hd_boom_xy (parsed g (sub0 cx) (sub0 cy))).2,
       r) := by
  simp only [state_play, message_decoder, classify_boomLine cx cy hdx hdy,
    List.nil_append]
  rfl

/-- The field dump contains only `dhSfRow` lines, never a shot. -/
lemma dhBoom_not_mem_print (g : GameState) (a b : Nat) :
    Out.dhBoom a b ∉ print_my_field g := by
  simp [print_my_field]

/-- The targeting AI only records the chosen shot and the hunter flag; it
never touches the fields, the shot grids or the flags below. -/
lemma attacking_opponent_fields (g : GameState) :
    (attacking_opponent g).1.my_field = g.my_field ∧
    (attacking_opponent g).1.i_lost = g.i_lost ∧
    (attacking_opponent g).1.enemy_shots = g.enemy_shots ∧
    (attacking_opponent g).1.enemy_hits = g.enemy_hits := by
  refine ⟨?_, ?_, ?_, ?_⟩ <;>
    · unfold attacking_opponent attacking_search
      repeat' split
      all_goals rfl

lemma hitMarked_fields (g : GameState) :
    (hitMarked g).my_field = g.my_field ∧
    (hitMarked g).i_lost = g.i_lost ∧
    (hitMarked g).last_shot_x = g.last_shot_x ∧
    (hitMarked g).last_shot_y = g.last_shot_y := by
  unfold hitMarked
  split
  · exact ⟨rfl, rfl, rfl, rfl⟩
  · exact ⟨rfl, rfl, rfl, rfl⟩

lemma hitMarked_hits (g : GameState) :
    (hitMarked g).enemy_hits = boomHits g (IDX g.parser_x g.parser_y) := by
  unfold hitMarked boomHits
  by_cases hH : g.enemy_shots.getD (IDX g.parser_x g.parser_y) NUL = 'H'
  · rw [if_neg (not_not_intro hH), if_pos hH]
  · rw [if_pos hH, if_neg hH]

/-- After the hit branch the targeted cell reads `'H'` whether it was
fresh or already marked. -/
lemma hitMarked_getD (g : GameState) (hlen : g.enemy_shots.length = 100)
    (hidx : IDX g.parser_x g.parser_y < 100) :
    (hitMarked g).enemy_shots.getD (IDX g.parser_x g.parser_y) NUL = 'H' := by
  unfold hitMarked
  by_cases hH : g.enemy_shots.getD (IDX g.parser_x g.parser_y) NUL = 'H'
  · rw [if_neg (not_not_intro hH)]
    exact hH
  · rw [if_pos hH]
    exact getD_set_self _ _ _ _ (by rw [hlen]; exact hidx)

lemma boomMarked_eq_hitMarked (g : GameState) (x y : Nat) :
    boomMarked g x y = hitMarked (parsed g x y) := by
  unfold boomMarked hitMarked boomHits parsed
  by_cases hH : g.enemy_shots.getD (IDX x y) NUL = 'H'
  · rw [if_pos hH, if_pos hH, if_neg (not_not_intro hH)]
  · rw [if_neg hH, if_neg hH, if_pos hH]

lemma print_my_field_congr (g1 g2 : GameState) (h : g1.my_field = g2.my_field) :
    print_my_field g1 = print_my_field g2 := by
  unfold print_my_field rowSlice
  rw [h]

/-- C8: in PLAY, an incoming shot `HD_BOOM_{x}_{y}` on an occupied
own-field cell marks the opponent-visible cell hit, increments the hit
counter only if the cell was not already hit, and then: if the counter
reached 30 the engine is defeated (END, `i_lost`), the output is exactly
the ten-row field dump with no counter-shot and the recorded own-shot
coordinate untouched; otherwise the engine stays in PLAY, emits
`DH_BOOM_H`, and invokes the targeting AI on the marked state. -/
theorem c8_incoming_shot_on_ship (g : GameState) (cheat : Nat) (r : List Nat)
    (cx cy : Char)
    (hdx : isDigit cx = true) (hdy : isDigit cy = true)
    (hlen : g.enemy_shots.length = 100)
    (hlost : g.i_lost = false)
    (hocc : g.my_field.getD (IDX (sub0 cx) (sub0 cy)) NUL ≠ '0') :
    ((state_play (boomLine cx cy) g cheat r).2.1.enemy_shots.getD
        (IDX (sub0 cx) (sub0 cy)) NUL = 'H') ∧
    ((state_play (boomLine cx cy) g cheat r).2.1.enemy_hits =
        boomHits g (IDX (sub0 cx) (sub0 cy))) ∧
    (boomHits g (IDX (sub0 cx) (sub0 cy)) = 30 →
      (state_play (boomLine cx cy) g cheat r).1 = State_Type.STATE_END ∧
      (state_play (boomLine cx cy) g cheat r).2.1.i_lost = true ∧
      (state_play (boomLine cx cy) g cheat r).2.2.2.1 = print_my_field g ∧
      (∀ a b, Out.dhBoom a b ∉ (state_play (boomLine cx cy) g cheat r).2.2.2.1) ∧
      (state_play (boomLine cx cy) g cheat r).2.1.last_shot_x = g.last_shot_x ∧
      (state_play (boomLine cx cy) g cheat r).2.1.last_shot_y = g.last_shot_y) ∧
    (boomHits g (IDX (sub0 cx) (sub0 cy)) ≠ 30 →
      (state_play (boomLine cx cy) g cheat r).1 = State_Type.STATE_PLAY ∧
      (state_play (boomLine cx cy) g cheat r).2.1 =
        (attacking_opponent (boomMarked g (sub0 cx) (sub0 cy))).1 ∧
      (state_play (boomLine cx cy) g cheat r).2.2.2.1 =
        Out.dhBoomH :: (attacking_opponent (boomMarked g (sub0 cx) (sub0 cy))).2) := by
  have hx9 := (sub0_digit cx hdx).2
  have hy9 := (sub0_digit cy hdy).2
  have hidx : IDX (sub0 cx) (sub0 cy) < 100 := by unfold IDX; omega
  have hGP : handle_hd_boom_xy (parsed g (sub0 cx) (sub0 cy)) =
      (if (hitMarked (parsed g (sub0 cx) (sub0 cy))).enemy_hits = 30 then
        ({ hitMarked (parsed g (sub0 cx) (sub0 cy)) with i_lost := true },
         print_my_field (hitMarked (parsed g (sub0 cx) (sub0 cy))))
      else
        ((attacking_opponent (hitMarked (parsed g (sub0 cx) (sub0 cy)))).1,
         Out.dhBoomH ::
           (attacking_opponent (hitMarked (parsed g (sub0 cx) (sub0 cy)))).2)) := by
    unfold handle_hd_boom_xy
    rw [if_neg (show ¬((parsed g (sub0 cx) (sub0 cy)).my_field.getD
      (IDX (parsed g (sub0 cx) (sub0 cy)).parser_x
        (parsed g (sub0 cx) (sub0 cy)).parser_y) NUL = '0') from hocc)]
  have hhits : (hitMarked (parsed g (sub0 cx) (sub0 cy))).enemy_hits =
      boomHits g (IDX (sub0 cx) (sub0 cy)) :=
    hitMarked_hits (parsed g (sub0 cx) (sub0 cy))
  have hshots : (hitMarked (parsed g (sub0 cx) (sub0 cy))).enemy_shots.getD
      (IDX (sub0 cx) (sub0 cy)) NUL = 'H' :=
    hitMarked_getD (parsed g (sub0 cx) (sub0 cy)) hlen hidx
  obtain ⟨hmf, hml, hmx, hmy⟩ := hitMarked_fields (parsed g (sub0 cx) (sub0 cy))
  obtain ⟨haf, hal, has, hah⟩ :=
    attacking_opponent_fields (hitMarked (parsed g (sub0 cx) (sub0 cy)))
  rw [state_play_boomLine cx cy hdx hdy, hGP]
  by_cases h30 : boomHits g (IDX (sub0 cx) (sub0 cy)) = 30
  · rw [if_pos (hhits.trans h30)]
    refine ⟨hshots, hhits, fun _ => ⟨rfl, rfl, ?_, ?_, hmx, hmy⟩,
      fun hne => absurd h30 hne⟩
    · exact print_my_field_congr _ _ hmf
    · exact fun a b => dhBoom_not_mem_print _ a b
  · rw [if_neg (fun hc => h30 (hhits.symm.trans hc))]
    have hil : (attacking_opponent (hitMarked (parsed g (sub0 cx)
        (sub0 cy)))).1.i_lost = false := by
      rw [hal, hml]
      exact hlost
    rw [hil]
    refine ⟨?_, ?_, fun hc => absurd hc h30, fun _ => ⟨rfl, ?_, ?_⟩⟩
    · rw [has]
      exact hshots
    · rw [hah]
      exact hhits
    · rw [boomMarked_eq_hitMarked]
    · rw [boomMarked_eq_hitMarked]

/-- Witness for C8 at a fresh game with one ship segment at (3, 4), shot
by `HD_BOOM_3_4` (not the 30th hit, so the engine counter-attacks). -/
theorem c8_incoming_shot_on_ship_witness :
    ((state_play (boomLine '3' '4') c8Game 0 []).2.1.enemy_shots.getD
        (IDX (sub0 '3') (sub0 '4')) NUL = 'H') ∧
    ((state_play (boomLine '3' '4') c8Game 0 []).2.1.enemy_hits =
        boomHits c8Game (IDX (sub0 '3') (sub0 '4'))) ∧
    (boomHits c8Game (IDX (sub0 '3') (sub0 '4')) = 30 →
      (state_play (boomLine '3' '4') c8Game 0 []).1 = State_Type.STATE_END ∧
      (state_play (boomLine '3' '4') c8Game 0 []).2.1.i_lost = true ∧
      (state_play (boomLine '3' '4') c8Game 0 []).2.2.2.1 = print_my_field c8Game ∧
      (∀ a b, Out.dhBoom a b ∉ (state_play (boomLine '3' '4') c8Game 0 []).2.2.2.1) ∧
      (state_play (boomLine '3' '4') c8Game 0 []).2.1.last_shot_x = c8Game.last_shot_x ∧
      (state_play (boomLine '3' '4') c8Game 0 []).2.1.last_shot_y = c8Game.last_shot_y) ∧
    (boomHits c8Game (IDX (sub0 '3') (sub0 '4')) ≠ 30 →
      (state_play (boomLine '3' '4') c8Game 0 []).1 = State_Type.STATE_PLAY ∧
      (state_play (boomLine '3' '4') c8Game 0 []).2.1 =
        (attacking_opponent (boomMarked c8Game (sub0 '3') (sub0 '4'))).1 ∧
      (state_play (boomLine '3' '4') c8Game 0 []).2.2.2.1 =
        Out.dhBoomH :: (attacking_opponent (boomMarked c8Game (sub0 '3') (sub0 '4'))).2) :=
  c8_incoming_shot_on_ship c8Game 0 [] '3' '4' (by decide) (by decide)
    (by decide) (by decide) (by decide)

lemma char_eq_iff_toNat (c d : Char) : c = d ↔ c.toNat = d.toNat :=
  ⟨fun h => h ▸ rfl, fun h => Char.ext (UInt32.toNat.inj h)⟩

lemma sub0_ne_zero (c : Char) (h : c.toNat < 256) :
    (sub0 c ≠ 0) ↔ c ≠ '0' := by
  rw [ne_eq c, char_eq_iff_toNat]
  unfold sub0
  have h0 : ('0' : Char).toNat = 48 := rfl
  rw [h0]
  omega

lemma foldl_count_eq (p : Nat → Prop) [DecidablePred p] (l : List Nat) (n : Nat) :
    l.foldl (fun cs col => if p col then cs + 1 else cs) n
      = n + l.countP (fun col => decide (p col)) := by
  induction l generalizing n with
  | nil => simp
  | cons a l ih =>
    simp only [List.foldl_cons, List.countP_cons, ih]
    split <;> split <;> first | omega | simp_all

lemma getD_mem_or (f : List Char) (i : Nat) (d : Char) :
    f.getD i d ∈ f ∨ f.getD i d = d := by
  rw [List.getD_eq_getElem?_getD]
  rcases h : f[i]? with _ | a
  · right
    rfl
  · left
    exact List.getElem?_mem h

lemma computeChecksum_getD (f : List Char) (hb : FieldBytes f)
    (row : Nat) (hrow : row < 10) :
    (computeChecksum f).getD row 0 = rowOcc f row := by
  unfold computeChecksum ROWS COLS
  rw [List.getD_eq_getElem?_getD, List.getElem?_map, List.getElem?_range hrow]
  simp only [Option.map_some', Option.getD_some]
  rw [foldl_count_eq (fun col => sub0 (f.getD (IDX row col) NUL) ≠ 0)]
  rw [Nat.zero_add, rowOcc]
  apply List.countP_congr
  intro col _
  have hbyte : (f.getD (IDX row col) NUL).toNat < 256 := by
    rcases getD_mem_or f (IDX row col) NUL with h | h
    · exact hb _ h
    · rw [h]
      decide
  simp only [decide_eq_true_eq]
  exact sub0_ne_zero _ hbyte

lemma FieldBytes_replicate : FieldBytes (List.replicate FIELD_SIZE '0') := by
  intro c hc
  rw [List.eq_of_mem_replicate hc]
  decide

lemma FieldBytes_set (f : List Char) (i : Nat) (v : Char)
    (hf : FieldBytes f) (hv : v.toNat < 256) : FieldBytes (f.set i v) := by
  intro c hc
  rcases List.mem_or_eq_of_mem_set hc with h | h
  · exact hf _ h
  · rw [h]
    exact hv

lemma FieldBytes_applyWrites (ws : List (Nat × Char)) : ∀ (f : List Char),
    FieldBytes f → (∀ w ∈ ws, (w.2).toNat < 256) →
    FieldBytes (applyWrites f ws) := by
  induction ws with
  | nil => exact fun f hf _ => hf
  | cons w ws ih =>
    intro f hf hw
    exact ih (f.set w.1 w.2)
      (FieldBytes_set f w.1 w.2 hf (hw w (List.mem_cons_self _ _)))
      (fun w' hw' => hw w' (List.mem_cons_of_mem _ hw'))

lemma mem_ite_nil (w : Nat × Char) (c : Prop) [Decidable c]
    (l : List (Nat × Char)) (h : w ∈ (if c then l else [])) : w ∈ l := by
  split at h
  · exact h
  · exact absurd h (List.not_mem_nil w)

lemma place_writes_snd (index size : Nat) (horizontal : Bool) :
    ∀ w ∈ place_ship_and_blocked_writes index size horizontal,
      w.2 = Char.ofNat (size + 48) ∨ w.2 = 'X' := by
  intro w hw
  unfold place_ship_and_blocked_writes at hw
  split at hw <;>
    · simp only [List.mem_append] at hw
      rcases hw with ((((((((h | h) | h) | h) | h) | h) | h) | h) | h) <;>
        first
          | (obtain ⟨i, -, rfl⟩ := List.mem_map.mp h; exact Or.inl rfl)
          | (rw [List.mem_singleton.mp (mem_ite_nil _ _ _ h)]; exact Or.inr rfl)
          | (obtain ⟨i, -, rfl⟩ := List.mem_map.mp (mem_ite_nil _ _ _ h);
             exact Or.inr rfl)

lemma shipChar_byte (size : Nat) (h : size ≤ 5) :
    (Char.ofNat (size + 48)).toNat < 256 := by
  interval_cases size <;> decide

lemma place_writes_byte (index size : Nat) (horizontal : Bool) (h : size ≤ 5) :
    ∀ w ∈ place_ship_and_blocked_writes index size horizontal,
      (w.2).toNat < 256 := by
  intro w hw
  rcases place_writes_snd index size horizontal w hw with h2 | h2
  · rw [h2]
    exact shipChar_byte size h
  · rw [h2]
    decide

lemma try_place_at_writes (f : List Char) (size fixed : Nat) (horizontal : Bool)
    (r : List Nat) (ws : List (Nat × Char)) (r' : List Nat)
    (h : try_place_at f size fixed horizontal r = some (ws, r')) :
    ∃ index, ws = place_ship_and_blocked_writes index size horizontal := by
  unfold try_place_at at h
  split at h
  · simp only [Option.some.injEq, Prod.mk.injEq] at h
    exact ⟨_, h.1.symm⟩
  · exact absurd h (by simp)

lemma tryPlaceLoop_bytes (size : Nat) (hsz : size ≤ 5) :
    ∀ (ks : List Nat) (f : List Char) (horizontal : Bool) (r : List Nat),
      FieldBytes f → FieldBytes (tryPlaceLoop f size horizontal r ks).2.1 := by
  intro ks
  induction ks with
  | nil => exact fun f horizontal r hf => hf
  | cons fixed rest ih =>
    intro f horizontal r hf
    simp only [tryPlaceLoop]
    rcases h1 : try_place_at f size fixed (!horizontal) r with _ | ⟨ws, r'⟩
    · rcases h2 : try_place_at f size fixed horizontal r with _ | ⟨ws, r'⟩
      · exact ih f horizontal r hf
      · obtain ⟨index, rfl⟩ := try_place_at_writes f size fixed horizontal r ws r' h2
        exact FieldBytes_applyWrites _ f hf
          (place_writes_byte index size horizontal hsz)
    · obtain ⟨index, rfl⟩ := try_place_at_writes f size fixed (!horizontal) r ws r' h1
      exact FieldBytes_applyWrites _ f hf
        (place_writes_byte index size (!horizontal) hsz)

lemma try_place_ship_eq (f : List Char) (size : Nat) (r : List Nat) :
    try_place_ship f size r = tryPlaceLoop f size
      ((randNext (shuffleIndices r).2).1 % 2 == 1)
      (randNext (shuffleIndices r).2).2 (shuffleIndices r).1 := rfl

lemma try_place_ship_bytes (size : Nat) (hsz : size ≤ 5) (f : List Char)
    (r : List Nat) (hf : FieldBytes f) :
    FieldBytes (try_place_ship f size r).2.1 := by
  rw [try_place_ship_eq]
  exact tryPlaceLoop_bytes size hsz _ f _ _ hf

lemma FieldBytes_removeX (f : List Char) (hf : FieldBytes f) :
    FieldBytes (f.map (fun c => if c == 'X' then '0' else c)) := by
  intro c hc
  rw [List.mem_map] at hc
  obtain ⟨a, ha, rfl⟩ := hc
  split
  · decide
  · exact hf _ ha

lemma placeFleet_eq (f : List Char) (r : List Nat) (s : Nat) :
    placeFleet (f, r) s =
      ((try_place_ship f s r).2.1, (try_place_ship f s r).2.2.2) := rfl

lemma foldPlace_bytes : ∀ (sizes : List Nat) (f : List Char) (r : List Nat),
    (∀ s ∈ sizes, s ≤ 5) → FieldBytes f →
    FieldBytes ((sizes.foldl placeFleet (f, r)).1) := by
  intro sizes
  induction sizes with
  | nil => exact fun f r _ hf => hf
  | cons s rest ih =>
    intro f r hs hf
    rw [List.foldl_cons, placeFleet_eq]
    exact ih _ _ (fun x hx => hs x (List.mem_cons_of_mem _ hx))
      (try_place_ship_bytes s (hs s (List.mem_cons_self _ _)) f r hf)

lemma fleetFold_bytes (r : List Nat) : FieldBytes (fleetFold r).1 := by
  unfold fleetFold
  exact foldPlace_bytes [5, 4, 4, 3, 3, 3, 2, 2, 2, 2]
    (List.replicate FIELD_SIZE '0') r (by decide) FieldBytes_replicate

lemma createFieldRaw_bytes (r : List Nat) : FieldBytes (createFieldRaw r).1 := by
  intro c hc
  simp only [createFieldRaw] at hc
  exact FieldBytes_removeX (fleetFold r).1 (fleetFold_bytes r) c hc

lemma create_my_field_inv (g : GameState) (r : List Nat) :
    checksum_inv (create_my_field g r).1 := by
  constructor
  · intro c hc
    simp only [create_my_field] at hc
    exact createFieldRaw_bytes r c hc
  · intro row hrow
    simp only [create_my_field]
    exact computeChecksum_getD (createFieldRaw r).1 (createFieldRaw_bytes r) row hrow

lemma getD_replicate {α : Type} (n i : Nat) (a d : α) :
    (List.replicate n a).getD i d = if i < n then a else d := by
  rw [List.getD_eq_getElem?_getD, List.getElem?_replicate]
  split <;> rfl

lemma rowOcc_blank (row : Nat) (hrow : row < 10) :
    rowOcc (List.replicate FIELD_SIZE '0') row = 0 := by
  rw [rowOcc, List.countP_eq_zero]
  intro col hcol
  rw [List.mem_range] at hcol
  have hidx : IDX row col < FIELD_SIZE := by unfold IDX FIELD_SIZE; omega
  simp only [decide_eq_true_eq]
  rw [getD_replicate, if_pos hidx]
  exact fun h => h rfl

lemma init_state_inv (res : ShotType) : checksum_inv (init_new_game_state res) := by
  constructor
  · intro c hc
    simp only [init_new_game_state] at hc
    rw [List.eq_of_mem_replicate hc]
    decide
  · intro row hrow
    simp only [init_new_game_state]
    rw [rowOcc_blank row hrow, getD_replicate]
    split <;> rfl

lemma checksum_inv_congr (g1 g2 : GameState) (hf : g1.my_field = g2.my_field)
    (hc : g1.my_checksum = g2.my_checksum) (h : checksum_inv g2) :
    checksum_inv g1 := by
  unfold checksum_inv at h ⊢
  rw [hf, hc]
  exact h

lemma attacking_opponent_my (g : GameState) :
    (attacking_opponent g).1.my_field = g.my_field ∧
    (attacking_opponent g).1.my_checksum = g.my_checksum := by
  constructor <;>
    · unfold attacking_opponent attacking_search
      repeat' split
      all_goals rfl

lemma missMarked_my (g : GameState) :
    (missMarked g).my_field = g.my_field ∧
    (missMarked g).my_checksum = g.my_checksum := by
  unfold missMarked
  split
  · exact ⟨rfl, rfl⟩
  · exact ⟨rfl, rfl⟩

lemma hitMarked_my (g : GameState) :
    (hitMarked g).my_field = g.my_field ∧
    (hitMarked g).my_checksum = g.my_checksum := by
  unfold hitMarked
  split
  · exact ⟨rfl, rfl⟩
  · exact ⟨rfl, rfl⟩

lemma handle_hd_boom_xy_inv (g : GameState) (h : checksum_inv g) :
    checksum_inv (handle_hd_boom_xy g).1 := by
  unfold handle_hd_boom_xy
  split
  · exact checksum_inv_congr _ _
      ((attacking_opponent_my (missMarked g)).1.trans (missMarked_my g).1)
      ((attacking_opponent_my (missMarked g)).2.trans (missMarked_my g).2) h
  · split
    · exact checksum_inv_congr _ _ (hitMarked_my g).1 (hitMarked_my g).2 h
    · exact checksum_inv_congr _ _
        ((attacking_opponent_my (hitMarked g)).1.trans (hitMarked_my g).1)
        ((attacking_opponent_my (hitMarked g)).2.trans (hitMarked_my g).2) h

lemma handle_hd_boom_result_my (g : GameState) :
    (handle_hd_boom_result g).my_field = g.my_field ∧
    (handle_hd_boom_result g).my_checksum = g.my_checksum := by
  unfold handle_hd_boom_result
  split <;> exact ⟨rfl, rfl⟩

lemma message_decoder_inv (l : List Char) (g : GameState) (cheat : Nat)
    (r : List Nat) (h : checksum_inv g) :
    checksum_inv (message_decoder l g cheat r).2.1 := by
  unfold message_decoder
  split
  · exact h
  · exact checksum_inv_congr _ _ rfl rfl h
  · exact checksum_inv_congr _ _ rfl rfl h
  · exact checksum_inv_congr _ _ rfl rfl h
  · exact checksum_inv_congr _ _ rfl rfl h
  · exact create_my_field_inv g r
  · exact h
  · exact h
  · exact h

lemma state_init_inv (l : List Char) (g : GameState) (cheat : Nat)
    (r : List Nat) (h : checksum_inv g) :
    checksum_inv (state_init l g cheat r).2.1 := by
  unfold state_init
  split
  rename_i t g1 cheat1 outs1 r1 heq
  have hg1 : checksum_inv g1 := by
    have h2 := message_decoder_inv l g cheat r h
    rw [heq] at h2
    exact h2
  split
  · exact create_my_field_inv g1 r1
  · exact hg1
  · exact hg1

set_option maxRecDepth 8000 in
/-- C9: refuted.  `compute_my_cs` does establish `my_checksum[r] =`
row-`r` occupancy at field generation (first conjunct, after the
handshake), but the equality is *not* preserved by every subsequent
operation: the FieldRow line `HD_SFND1111111111`, accepted by the
decoder's prefix-only check with `parser_row = 'N' - '0' = 30`, makes
`handle_hd_sf_row` store the ten payload bytes at `enemy_field[300..309]`
— `my_checksum[0..9]` in the object layout — so in the resulting
still-reachable PLAY state `my_checksum[0] = 49` while `my_field` is
unchanged and row 0 holds no 49 cells. -/
theorem c9_sf_row_30_breaks_checksum_equality :
    ((sysRun (initialSys ShotType.MISS) [] c9HandshakeEvs).1.game.my_checksum.getD 0 0 =
       rowOcc (sysRun (initialSys ShotType.MISS) [] c9HandshakeEvs).1.game.my_field 0) ∧
    (sysRun (initialSys ShotType.MISS) [] c9Evs).1.curr_state = State_Type.STATE_PLAY ∧
    (sysRun (initialSys ShotType.MISS) [] c9Evs).1.game.my_field =
      (sysRun (initialSys ShotType.MISS) [] c9HandshakeEvs).1.game.my_field ∧
    (sysRun (initialSys ShotType.MISS) [] c9Evs).1.game.my_checksum.getD 0 0 = 49 ∧
    (sysRun (initialSys ShotType.MISS) [] c9Evs).1.game.my_checksum.getD 0 0 ≠
      rowOcc (sysRun (initialSys ShotType.MISS) [] c9Evs).1.game.my_field 0 := by
  decide
end Battleship
